import Mathlib

/-!
Shallow embedding of the layer-data decoding core of the `tmx` package
(a parser for the Tiled map editor's TMX format), together with theorems
checking the natural-language specification against it.

Modelling conventions:
* Go `uint32` values are modelled as `Nat`, with an explicit `% 2 ^ 32`
  wherever Go arithmetic can wrap.
* Byte slices are `List Nat` (each entry a byte value); text payloads are
  `List Char` (Go converts between `[]byte` and `string` freely; the CSV
  and terrain paths operate on text).
* Fallible Go functions returning `(T, error)` are modelled as
  `Except TmxError T`; by Go convention the value accompanying a non-nil
  error is not a result.
* Methods that mutate their receiver through a pointer (the memoization
  caches of `Layer` and `Tile`) are modelled by explicit state passing:
  they return the updated record.  A Go nil slice cache is `none`; note
  that assigning an empty slice to a cache field leaves it nil, which the
  model mirrors.
* To make "the payload decode ran" observable (the spec speaks about
  decoding happening at most once), the `Layer` accessors additionally
  return the number of payload-decoder invocations the call performed.
-/

namespace Tmx

/-- Errors of the decoding core, mirroring the error values and
`fmt.Errorf` sites of the source. -/
inductive TmxError where
  /-- Source error `ErrUnsupportedEncoding` -/
  | unsupportedEncoding : TmxError
  /-- Source error `ErrUnsupportedCompression` -/
  | unsupportedCompression : TmxError
  /-- "no suitable tileset found for tile with global ID %v"; carries the
  offending `GlobalID`. -/
  | noSuitableTileSet (gid : Nat) : TmxError
  /-- "expected byte array to be divisible by 4, length was %v" -/
  | lengthMismatch (len : Nat) : TmxError
  /-- a `strconv` numeric parse failure; carries the offending field text -/
  | parseFailure (field : List Char) : TmxError
  /-- "unexpected terrain type specifier %v; expected 4 values, got %v" -/
  | terrainFieldCount (raw : List Char) (got : Nat) : TmxError
  /-- a corrupt base64 payload (Go `base64.CorruptInputError`) -/
  | corruptBase64 : TmxError
deriving DecidableEq, Repr

/-! ### Bitmasks for tile orientation (source constants) -/

def TileFlippedHorizontally : Nat := 0x80000000

def TileFlippedVertically : Nat := 0x40000000

def TileFlippedDiagonally : Nat := 0x20000000

def TileFlipped : Nat :=
  TileFlippedHorizontally ||| TileFlippedVertically ||| TileFlippedDiagonally

/-! ### Global Identifier codec -/

/-- Source `GlobalID.IsFlippedHorizontally`: Go `g&TileFlippedHorizontally != 0`. -/
def GlobalID.IsFlippedHorizontally (g : Nat) : Bool :=
  g &&& TileFlippedHorizontally != 0

/-- Source `GlobalID.IsFlippedVertically`: Go `g&TileFlippedVertically != 0`. -/
def GlobalID.IsFlippedVertically (g : Nat) : Bool :=
  g &&& TileFlippedVertically != 0

/-- Source `GlobalID.IsFlippedDiagonally`: Go `g&TileFlippedDiagonally != 0`. -/
def GlobalID.IsFlippedDiagonally (g : Nat) : Bool :=
  g &&& TileFlippedDiagonally != 0

/-- Source `GlobalID.BareID`: Go `uint32(g &^ TileFlipped)`.  Go's `&^` is
AND-NOT; on `uint32` the complement of `TileFlipped` is
`0xFFFFFFFF ^^^ TileFlipped`. -/
def GlobalID.BareID (g : Nat) : Nat :=
  g &&& (0xFFFFFFFF ^^^ TileFlipped)

/-! ### Text helpers (Go `strings` / `strconv` semantics) -/

/-- Go `unicode.IsSpace` restricted to the ASCII range (space, tab,
newline, vertical tab, form feed, carriage return). -/
def isSpaceChar (c : Char) : Bool :=
  c = ' ' || c = '\t' || c = '\n' || c = (Char.ofNat 11) || c = (Char.ofNat 12) || c = '\r'

/-- Go `strings.TrimSpace`: drop whitespace from both ends. -/
def trimChars (cs : List Char) : List Char :=
  ((cs.dropWhile isSpaceChar).reverse.dropWhile isSpaceChar).reverse

/-- Go `strings.Split(s, ",")`: split on every comma; the empty string
yields one empty field. -/
def splitFields : List Char → List (List Char)
  | [] => [[]]
  | c :: rest =>
    if c = ',' then [] :: splitFields rest
    else
      match splitFields rest with
      | f :: fs => (c :: f) :: fs
      | [] => [[c]]

/-- Numeric value of a digit string (most significant digit first). -/
def digitsVal (cs : List Char) : Nat :=
  cs.foldl (fun acc c => 10 * acc + (c.toNat - 48)) 0

/-- Whether `strconv.ParseUint(s, 10, 32)` succeeds on `cs`: a non-empty
all-digit string (no sign permitted) whose value fits in 32 bits. -/
def isUint32 (cs : List Char) : Bool :=
  !cs.isEmpty && cs.all Char.isDigit && digitsVal cs < 2 ^ 32

/-- Go `strconv.ParseUint(s, 10, 32)`; on failure the error names the
offending field. -/
def parseUint32 (cs : List Char) : Except TmxError Nat :=
  if isUint32 cs then .ok (digitsVal cs) else .error (.parseFailure cs)

/-- Go `strconv.ParseInt(s, 10, 32)`: an optional sign, then digits, with
the value in `[-2^31, 2^31)`. -/
def parseInt32 (cs : List Char) : Except TmxError Int :=
  let (sign, digits) : Int × List Char :=
    match cs with
    | '-' :: rest => (-1, rest)
    | '+' :: rest => (1, rest)
    | l => (1, l)
  if digits.isEmpty || !digits.all Char.isDigit then .error (.parseFailure cs)
  else
    let v : Int := sign * (digitsVal digits : Int)
    if -2 ^ 31 ≤ v ∧ v < 2 ^ 31 then .ok v else .error (.parseFailure cs)

/-- Go conversion `uint32(id)` applied to an `int32` value: two's
complement reduction modulo `2^32`. -/
def int32ToUint32 (v : Int) : Nat :=
  (v % (2 ^ 32 : Int)).toNat

/-! ### Payload decoder -/

/-- Source `decodeB64LayerData`'s little-endian regrouping: each consecutive
4-byte group becomes `binary.LittleEndian.Uint32`, in stream order. -/
def leWords : List Nat → List Nat
  | b0 :: b1 :: b2 :: b3 :: rest =>
    (b0 + 2 ^ 8 * b1 + 2 ^ 16 * b2 + 2 ^ 24 * b3) :: leWords rest
  | _ => []

/-- Source `decodeB64LayerData`: the byte count must be divisible by 4; each
4-byte little-endian group becomes one `uint32`. -/
def decodeB64LayerData (b : List Nat) : Except TmxError (List Nat) :=
  if b.length % 4 ≠ 0 then .error (.lengthMismatch b.length)
  else .ok (leWords b)

/-- The field loop of `decodeCSVLayerData`: trim and parse each field in
order, the first bad field aborting with its parse error. -/
def parseCSVFields : List (List Char) → Except TmxError (List Nat)
  | [] => .ok []
  | f :: rest =>
    match parseUint32 (trimChars f) with
    | .error e => .error e
    | .ok v => (parseCSVFields rest).map (fun vs => v :: vs)

/-- Source `decodeCSVLayerData`: split the text on `,`, trim each field, parse
each as a base-10 unsigned 32-bit integer; the first bad field aborts. -/
def decodeCSVLayerData (cs : List Char) : Except TmxError (List Nat) :=
  parseCSVFields (splitFields cs)

/-! ### Base64 decoding (Go `encoding/base64`, standard padded alphabet) -/

/-- Value of one character of the standard base64 alphabet. -/
def b64Val (c : Char) : Option Nat :=
  if 'A' ≤ c ∧ c ≤ 'Z' then some (c.toNat - 65)
  else if 'a' ≤ c ∧ c ≤ 'z' then some (c.toNat - 71)
  else if '0' ≤ c ∧ c ≤ '9' then some (c.toNat + 4)
  else if c = '+' then some 62
  else if c = '/' then some 63
  else none

/-- Decode standard padded base64 in 4-character groups (the character
stream has already had `\r`/`\n` removed, as Go's streaming decoder skips
them). -/
def b64Groups : List Char → Except TmxError (List Nat)
  | [] => .ok []
  | c1 :: c2 :: c3 :: c4 :: rest =>
    match b64Val c1, b64Val c2 with
    | some v1, some v2 =>
      if c3 = '=' then
        if c4 = '=' ∧ rest = [] then .ok [v1 * 4 + v2 / 16]
        else .error .corruptBase64
      else
        match b64Val c3 with
        | some v3 =>
          if c4 = '=' then
            if rest = [] then .ok [v1 * 4 + v2 / 16, v2 % 16 * 16 + v3 / 4]
            else .error .corruptBase64
          else
            match b64Val c4 with
            | some v4 =>
              (b64Groups rest).map
                (fun bs => (v1 * 4 + v2 / 16) :: (v2 % 16 * 16 + v3 / 4) ::
                  (v3 % 4 * 64 + v4) :: bs)
            | none => .error .corruptBase64
        | none => .error .corruptBase64
    | _, _ => .error .corruptBase64
  | _ => .error .corruptBase64

/-- Go `base64.NewDecoder(base64.StdEncoding, r)` followed by `ReadAll`:
skip CR/LF, then decode padded 4-character groups. -/
def b64Decode (cs : List Char) : Except TmxError (List Nat) :=
  b64Groups (cs.filter (fun c => !(c = '\n' || c = '\r')))

/-! ### Data model -/

/-- Source `TerrainType`: the four corner tiles of a terrain descriptor. -/
structure TerrainType where
  TopLeft : Nat := 0
  TopRight : Nat := 0
  BottomLeft : Nat := 0
  BottomRight : Nat := 0
deriving DecidableEq, Repr

/-- Source `Tile`: an individual tile within a `TileSet`.  Only the fields the
decoding core reads are modelled; `terrainType` is the memoization cache
(a Go nil pointer is `none`). -/
structure Tile where
  TileID : Nat := 0
  RawTerrainType : List Char := []
  terrainType : Option TerrainType := none
deriving DecidableEq, Repr

/-- Source `TileSet`: first global id plus the per-tile metadata table (the
remaining source fields are opaque to the decoding core). -/
structure TileSet where
  FirstGlobalID : Nat := 0
  Name : String := ""
  Tiles : List Tile := []
deriving DecidableEq, Repr

/-- Source `TileSet.TileWithID`: first tile with the given local id, if any. -/
def TileSet.TileWithID (t : TileSet) (id : Nat) : Option Tile :=
  t.Tiles.find? (fun tile => tile.TileID == id)

/-- Source `TileGlobalRef`: a reference to a tile `GlobalID`. -/
structure TileGlobalRef where
  GlobalID : Nat := 0
deriving DecidableEq, Repr

/-- Source `TileDef`: one hydrated tile.  Go's `&TileDef{Nil: true}` zero-values
every other field; the two pointer fields are `Option`s. -/
structure TileDef where
  Nil : Bool := false
  ID : Nat := 0
  GlobalID : Nat := 0
  TileSet : Option TileSet := none
  Tile : Option Tile := none
  HorizontallyFlipped : Bool := false
  VerticallyFlipped : Bool := false
  DiagonallyFlipped : Bool := false
deriving DecidableEq, Repr

/-- Source `Data`: a layer payload — either structured references or a raw
encoded blob (text, as the XML inner text). -/
structure Data where
  Encoding : String := ""
  Compression : String := ""
  TileGlobalRefs : List TileGlobalRef := []
  RawBytes : List Char := []
deriving DecidableEq, Repr

/-- Source `Layer`: tile arrangement plus the two memoization caches (Go nil
slices are `none`; assigning an empty slice leaves the cache nil). -/
structure Layer where
  Name : String := ""
  RawData : Data := {}
  tileGlobalRefs : Option (List TileGlobalRef) := none
  tileDefs : Option (List TileDef) := none
deriving DecidableEq, Repr

/-- Source `GlobalID.TileID`: Go `TileID(g.BareID() - uint32(t.FirstGlobalID))` —
`uint32` subtraction, which wraps modulo `2^32`. -/
def GlobalID.TileID (g : Nat) (t : TileSet) : Nat :=
  (GlobalID.BareID g + (2 ^ 32 - t.FirstGlobalID % 2 ^ 32)) % 2 ^ 32

/-! ### Layer decode pipeline -/

/-- Source `Data.decodeB64Data`: dispatch on the compression tag (an unknown tag
fails with `ErrUnsupportedCompression` before any base64 is read), trim
the payload, base64-decode it, and decompress.

The `zlib`/`gzip` stream decompressors are Go standard-library code,
external to this repository; no claim depends on the decompressed
content, and the model takes the decompressed output of a stream as the
stream's own bytes. -/
def Data.decodeB64Data (d : Data) : Except TmxError (List Nat) :=
  match d.Compression with
  | "zlib" => b64Decode (trimChars d.RawBytes)
  | "gzip" => b64Decode (trimChars d.RawBytes)
  | "" => b64Decode (trimChars d.RawBytes)
  | _ => .error .unsupportedCompression

/-- The blob-to-`uint32`-stream stage of `Layer.TileGlobalRefs`, fusing
`Data.Bytes` with the encoding switch (both dispatch on the same tag):
`base64` runs `decodeB64Data` then `decodeB64LayerData`; `csv` passes the
raw text to `decodeCSVLayerData`; any other tag — including the empty
one — yields `ErrUnsupportedEncoding` (in the source the empty tag fails
at the switch and an unknown tag inside `Data.Bytes`; the observable
result is the same error either way). -/
def layerDecodeUints (d : Data) : Except TmxError (List Nat) :=
  match d.Encoding with
  | "base64" => d.decodeB64Data >>= decodeB64LayerData
  | "csv" => decodeCSVLayerData d.RawBytes
  | _ => .error .unsupportedEncoding

/-- Source `Layer.TileGlobalRefs`, with the receiver mutation made explicit and
the number of payload-decoder runs reported (third component): return
the structured references verbatim when non-empty; else the cache when
populated; else decode the blob, wrap each `uint32`, and cache the list
(a Go nil slice: an empty result leaves the cache nil). -/
def Layer.TileGlobalRefs (l : Layer) :
    Except TmxError (List TileGlobalRef) × Layer × Nat :=
  if l.RawData.TileGlobalRefs ≠ [] then (.ok l.RawData.TileGlobalRefs, l, 0)
  else
    match l.tileGlobalRefs with
    | some trs => (.ok trs, l, 0)
    | none =>
      match layerDecodeUints l.RawData with
      | .error e => (.error e, l, 1)
      | .ok uis =>
        let trs := uis.map (fun ui => { GlobalID := ui : TileGlobalRef })
        (.ok trs,
          { l with tileGlobalRefs := if trs = [] then none else some trs }, 1)

/-- The tile-set scan of `Layer.TileDefs`: walk the (sorted) tile-sets,
remembering the last one whose first-id is ≤ `bid`, and stop at the
first whose first-id exceeds `bid`. -/
def resolveTileSet (bid : Nat) : List TileSet → Option TileSet → Option TileSet
  | [], acc => acc
  | t :: rest, acc =>
    if bid < t.FirstGlobalID then acc
    else resolveTileSet bid rest (some t)

/-- Insert into a list sorted by `FirstGlobalID`. -/
def insertTS (t : TileSet) : List TileSet → List TileSet
  | [] => [t]
  | u :: rest =>
    if t.FirstGlobalID < u.FirstGlobalID then t :: u :: rest
    else u :: insertTS t rest

/-- Source `sort.Sort(byFirstGlobalID(tss))`: sort the tile-sets ascending by
first global id (`Less` compares `FirstGlobalID` with `<`; the source's
sort is unstable, so any ordering of equal keys is a faithful model). -/
def sortTileSets : List TileSet → List TileSet
  | [] => []
  | t :: rest => insertTS t (sortTileSets rest)

/-- Go `&TileDef{Nil: true}`: the distinguished empty-cell definition. -/
def nilTileDef : TileDef := { Nil := true }

/-- The per-cell loop of `Layer.TileDefs` over an already-sorted tile-set
list: a bare id of 0 emits `nilTileDef`; otherwise the owning tile-set is
resolved (failure aborts the whole call with `noSuitableTileSet`) and a
hydrated definition is appended. -/
def buildTileDefs (tss : List TileSet) : List TileGlobalRef → Except TmxError (List TileDef)
  | [] => .ok []
  | tgr :: rest =>
    let bid := GlobalID.BareID tgr.GlobalID
    if bid = 0 then (buildTileDefs tss rest).map (fun tds => nilTileDef :: tds)
    else
      match resolveTileSet bid tss none with
      | none => .error (.noSuitableTileSet tgr.GlobalID)
      | some ts =>
        let id := GlobalID.TileID tgr.GlobalID ts
        (buildTileDefs tss rest).map (fun tds =>
          { ID := id
            GlobalID := tgr.GlobalID
            TileSet := some ts
            Tile := ts.TileWithID id
            HorizontallyFlipped := GlobalID.IsFlippedHorizontally tgr.GlobalID
            VerticallyFlipped := GlobalID.IsFlippedVertically tgr.GlobalID
            DiagonallyFlipped := GlobalID.IsFlippedDiagonally tgr.GlobalID
            : TileDef } :: tds)

/-- Source `Layer.TileDefs`, with the receiver mutation made explicit and the
payload-decoder run count reported: return the cache when populated;
else obtain the references, sort the supplied tile-sets, and resolve
every cell (an error yields no decoded sequence and caches nothing; a
successful empty list is a Go nil slice and leaves the cache nil). -/
def Layer.TileDefs (l : Layer) (tss : List TileSet) :
    Except TmxError (List TileDef) × Layer × Nat :=
  match l.tileDefs with
  | some tds => (.ok tds, l, 0)
  | none =>
    match l.TileGlobalRefs with
    | (.error e, l1, n) => (.error e, l1, n)
    | (.ok tgrs, l1, n) =>
      match buildTileDefs (sortTileSets tss) tgrs with
      | .error e => (.error e, l1, n)
      | .ok tds =>
        (.ok tds, { l1 with tileDefs := if tds = [] then none else some tds }, n)

/-! ### Terrain corner descriptors -/

/-- The field-parsing loop of `Tile.TerrainType`: trim and `ParseInt`
each field in order, converting to an unsigned local tile id; the first
bad field aborts with its parse error. -/
def parseCorners : List (List Char) → Except TmxError (List Nat)
  | [] => .ok []
  | f :: rest =>
    match parseInt32 (trimChars f) with
    | .error e => .error e
    | .ok v => (parseCorners rest).map (fun vs => int32ToUint32 v :: vs)

/-- Source `Tile.TerrainType`, with the receiver mutation made explicit: an
empty descriptor yields a fresh zero-valued result (not cached); a
cached result is returned as-is; otherwise the descriptor is split on
commas, must have exactly 4 fields, each field is parsed as a signed
32-bit integer, and the successful result is cached. -/
def Tile.TerrainType (t : Tile) : Except TmxError TerrainType × Tile :=
  if t.RawTerrainType = [] then (.ok {}, t)
  else
    match t.terrainType with
    | some tt => (.ok tt, t)
    | none =>
      let strs := splitFields t.RawTerrainType
      if strs.length ≠ 4 then
        (.error (.terrainFieldCount t.RawTerrainType strs.length), t)
      else
        match parseCorners strs with
        | .error e => (.error e, t)
        | .ok vs =>
          let tt : Tmx.TerrainType :=
            { TopLeft := vs.getD 0 0
              TopRight := vs.getD 1 0
              BottomLeft := vs.getD 2 0
              BottomRight := vs.getD 3 0 }
          (.ok tt, { t with terrainType := some tt })

/-! ### Concrete fixtures used by witnesses and counterexamples -/

/-- A layer carrying both structured references and invalid
encoding/compression tags. -/
def badTagLayer : Layer :=
  { RawData := { Encoding := "not-an-encoding"
                 Compression := "lzma"
                 TileGlobalRefs := [{ GlobalID := 42 }] } }

/-- A base64/no-compression layer with an empty payload: its decode
succeeds with the empty sequence. -/
def emptyB64Layer : Layer :=
  { RawData := { Encoding := "base64" } }

/-! ### Helper lemmas -/

/-- Clearing the three flag bits of a global id is reduction mod `2^29`. -/
lemma bareID_eq_mod (g : Nat) : GlobalID.BareID g = g % 2 ^ 29 := by
  have h : (0xFFFFFFFF ^^^ TileFlipped) = 2 ^ 29 - 1 := by decide
  rw [GlobalID.BareID, h, Nat.and_pow_two_sub_one_eq_mod]

lemma bareID_lt (g : Nat) : GlobalID.BareID g < 2 ^ 29 := by
  rw [bareID_eq_mod]
  exact Nat.mod_lt _ (by norm_num)

lemma flipH_eq_testBit (g : Nat) :
    GlobalID.IsFlippedHorizontally g = g.testBit 31 := by
  have h : TileFlippedHorizontally = 2 ^ 31 := by decide
  rw [GlobalID.IsFlippedHorizontally, h, Nat.and_two_pow]
  cases hb : g.testBit 31 <;> simp [hb]

lemma flipV_eq_testBit (g : Nat) :
    GlobalID.IsFlippedVertically g = g.testBit 30 := by
  have h : TileFlippedVertically = 2 ^ 30 := by decide
  rw [GlobalID.IsFlippedVertically, h, Nat.and_two_pow]
  cases hb : g.testBit 30 <;> simp [hb]

lemma flipD_eq_testBit (g : Nat) :
    GlobalID.IsFlippedDiagonally g = g.testBit 29 := by
  have h : TileFlippedDiagonally = 2 ^ 29 := by decide
  rw [GlobalID.IsFlippedDiagonally, h, Nat.and_two_pow]
  cases hb : g.testBit 29 <;> simp [hb]

/-- The little-endian regrouping of a 4-divisible byte stream: one word
per consecutive 4-byte group, in stream order. -/
lemma leWords_spec : ∀ b : List Nat, b.length % 4 = 0 →
    (leWords b).length = b.length / 4
    ∧ ∀ i, i < b.length / 4 →
        (leWords b).getD i 0 =
          b.getD (4 * i) 0 + 2 ^ 8 * b.getD (4 * i + 1) 0
            + 2 ^ 16 * b.getD (4 * i + 2) 0 + 2 ^ 24 * b.getD (4 * i + 3) 0
  | [], _ => by
    refine ⟨rfl, ?_⟩
    intro i hi
    simp at hi
  | [b0], h => by simp at h
  | [b0, b1], h => by simp at h
  | [b0, b1, b2], h => by simp at h
  | b0 :: b1 :: b2 :: b3 :: rest, h => by
    have hr : rest.length % 4 = 0 := by
      simp only [List.length_cons] at h
      omega
    obtain ⟨hl, hi⟩ := leWords_spec rest hr
    have hq : (b0 :: b1 :: b2 :: b3 :: rest).length / 4 = rest.length / 4 + 1 := by
      simp only [List.length_cons]
      omega
    constructor
    · simp only [leWords, List.length_cons, hl, hq]
      omega
    · intro i hilt
      match i with
      | 0 => simp [leWords]
      | Nat.succ j =>
        have e1 : 4 * (j + 1) = 4 * j + 1 + 1 + 1 + 1 := by ring
        have e2 : 4 * (j + 1) + 1 = 4 * j + 1 + 1 + 1 + 1 + 1 := by ring
        have e3 : 4 * (j + 1) + 2 = 4 * j + 1 + 1 + 1 + 1 + 1 + 1 := by ring
        have e4 : 4 * (j + 1) + 3 = 4 * j + 1 + 1 + 1 + 1 + 1 + 1 + 1 := by ring
        rw [hq] at hilt
        have := hi j (by omega)
        simpa [leWords, e1, e2, e3, e4, List.getD_cons_succ] using this

/-! ### C3 — little-endian word stream from a base64 payload -/

/-- C3: decoding a byte payload (the output of the base64 path, after
base64-decoding and any decompression) fails with the length-mismatch
error exactly when the byte count is not divisible by 4; otherwise it
yields one `uint32` per consecutive 4-byte group, each composed
little-endian, in stream order. -/
theorem b64_layer_data_spec (b : List Nat) :
    (b.length % 4 ≠ 0 → decodeB64LayerData b = .error (.lengthMismatch b.length))
    ∧ (b.length % 4 = 0 →
        decodeB64LayerData b = .ok (leWords b)
        ∧ (leWords b).length = b.length / 4
        ∧ ∀ i, i < b.length / 4 →
            (leWords b).getD i 0 =
              b.getD (4 * i) 0 + 2 ^ 8 * b.getD (4 * i + 1) 0
                + 2 ^ 16 * b.getD (4 * i + 2) 0 + 2 ^ 24 * b.getD (4 * i + 3) 0) := by
  constructor
  · intro h
    simp [decodeB64LayerData, h]
  · intro h
    obtain ⟨hl, hi⟩ := leWords_spec b h
    exact ⟨by simp [decodeB64LayerData, h], hl, hi⟩

/-- Witness for `b64_layer_data_spec`: a 7-byte payload fails with the
length-mismatch error, and the 8-byte payload
`[1,0,0,0, 0,1,0,0]` decodes to the two little-endian words `[1, 256]`. -/
theorem b64_layer_data_spec_witness :
    decodeB64LayerData [9, 9, 9, 9, 9, 9, 9] = .error (.lengthMismatch 7)
    ∧ decodeB64LayerData [1, 0, 0, 0, 0, 1, 0, 0] = .ok [1, 256] := by
  constructor
  · exact (b64_layer_data_spec [9, 9, 9, 9, 9, 9, 9]).1 (by decide)
  · have h := ((b64_layer_data_spec [1, 0, 0, 0, 0, 1, 0, 0]).2 (by decide)).1
    rw [show leWords [1, 0, 0, 0, 0, 1, 0, 0] = [1, 256] from by decide] at h
    exact h

/-! ### C6 — CSV payload decoding -/

/-- A CSV decode succeeds (with the trimmed fields' values, in field
order) exactly when every comma-separated field trims to a valid
unsigned 32-bit decimal. -/
lemma csv_ok_iff : ∀ fs : List (List Char),
    parseCSVFields fs = .ok (fs.map (fun f => digitsVal (trimChars f)))
      ↔ ∀ f ∈ fs, isUint32 (trimChars f) = true
  | [] => by simp [parseCSVFields]
  | f :: rest => by
    have ih := csv_ok_iff rest
    cases hv : isUint32 (trimChars f) with
    | true =>
      simp only [parseCSVFields, parseUint32, hv, if_true, List.map_cons]
      cases hm : parseCSVFields rest with
      | error e =>
        simp only [hm, Except.map]
        constructor
        · intro h
          exact absurd h (by simp)
        · intro h
          exfalso
          have hok := ih.mpr (fun g hg => h g (List.mem_cons_of_mem f hg))
          rw [hm] at hok
          exact absurd hok (by simp)
      | ok vs =>
        simp only [hm, Except.map]
        constructor
        · intro h g hg
          rcases List.mem_cons.mp hg with rfl | hg'
          · exact hv
          · have hvs : vs = rest.map (fun f => digitsVal (trimChars f)) := by
              simpa using h
            exact ih.mp (by rw [hm, hvs]) g hg'
        · intro h
          have hok := ih.mpr (fun g hg => h g (List.mem_cons_of_mem f hg))
          rw [hm] at hok
          simp only [Except.ok.injEq] at hok
          simp [hok]
    | false =>
      simp only [parseCSVFields, parseUint32, hv, Bool.false_eq_true, if_false]
      constructor
      · intro h
        exact absurd h (by simp)
      · intro h
        have := h f (List.mem_cons_self f rest)
        simp [hv] at this

/-- If some field of a CSV payload is invalid, the decode aborts with a
parse error naming the first invalid field (trimmed). -/
lemma csv_error_of_find : ∀ (fs : List (List Char)) (f : List Char),
    fs.find? (fun f => !(isUint32 (trimChars f))) = some f →
    parseCSVFields fs = .error (.parseFailure (trimChars f))
  | [], f => by intro h; simp at h
  | g :: rest, f => by
    intro h
    rw [List.find?_cons] at h
    cases hv : isUint32 (trimChars g) with
    | true =>
      rw [hv] at h
      simp only [Bool.not_true] at h
      have ihe := csv_error_of_find rest f h
      simp only [parseCSVFields, parseUint32, hv, if_true, ihe, Except.map]
    | false =>
      rw [hv] at h
      simp only [Bool.not_false] at h
      cases h
      simp only [parseCSVFields, parseUint32, hv, Bool.false_eq_true, if_false]

/-- C6: the CSV decoder splits the text on `,`, trims each field, and
parses each field as a base-10 unsigned 32-bit integer, yielding the
values in field order; it succeeds exactly when every field is valid,
and otherwise fails with a parse error naming the (first) offending
field. -/
theorem csv_decode_spec (cs : List Char) :
    (decodeCSVLayerData cs =
        .ok ((splitFields cs).map (fun f => digitsVal (trimChars f)))
      ↔ ∀ f ∈ splitFields cs, isUint32 (trimChars f) = true)
    ∧ (∀ f, (splitFields cs).find? (fun f => !(isUint32 (trimChars f))) = some f →
        decodeCSVLayerData cs = .error (.parseFailure (trimChars f))) := by
  constructor
  · exact csv_ok_iff (splitFields cs)
  · intro f hf
    exact csv_error_of_find (splitFields cs) f hf

/-- Witness for `csv_decode_spec`: the payload `"1, 2,3 ,4"` decodes to
`[1, 2, 3, 4]` and the payload `"1,x,3"` fails with a parse error naming
the field `"x"`. -/
theorem csv_decode_spec_witness :
    decodeCSVLayerData ("1, 2,3 ,4".data) = .ok [1, 2, 3, 4]
    ∧ decodeCSVLayerData ("1,x,3".data) = .error (.parseFailure ['x']) := by
  constructor
  · have h := (csv_decode_spec ("1, 2,3 ,4".data)).1.mpr (by decide)
    rw [show ((splitFields ("1, 2,3 ,4".data)).map
        (fun f => digitsVal (trimChars f))) = [1, 2, 3, 4] from by decide] at h
    exact h
  · have h := (csv_decode_spec ("1,x,3".data)).2 ['x'] (by decide)
    exact h

/-! ### C2 — Global Identifier codec -/

/-- C2: for every 32-bit value, the bare id clears exactly bits 31, 30
and 29 (`raw &&& 0x1FFFFFFF`, i.e. reduction mod `2^29`), and the three
flip predicates return exactly bits 31, 30 and 29 respectively.  The
decode is pure and total by construction: every operation is a total
function of the raw value with no error path. -/
theorem global_id_codec_spec (g : Nat) (_hg : g < 2 ^ 32) :
    GlobalID.BareID g = g &&& 0x1FFFFFFF
    ∧ GlobalID.BareID g = g % 2 ^ 29
    ∧ (GlobalID.IsFlippedHorizontally g = true ↔ g.testBit 31)
    ∧ (GlobalID.IsFlippedVertically g = true ↔ g.testBit 30)
    ∧ (GlobalID.IsFlippedDiagonally g = true ↔ g.testBit 29) := by
  refine ⟨rfl, bareID_eq_mod g, ?_, ?_, ?_⟩
  · rw [flipH_eq_testBit]
  · rw [flipV_eq_testBit]
  · rw [flipD_eq_testBit]

/-- Witness for `global_id_codec_spec` at the concrete raw value
`0xA0000007` (horizontal and diagonal flips set, bare id 7). -/
theorem global_id_codec_spec_witness :
    (0xA0000007 : Nat) < 2 ^ 32
    ∧ GlobalID.BareID 0xA0000007 = 0xA0000007 % 2 ^ 29
    ∧ (GlobalID.IsFlippedHorizontally 0xA0000007 = true ↔ Nat.testBit 0xA0000007 31) :=
  ⟨by decide, (global_id_codec_spec 0xA0000007 (by decide)).2.1,
    (global_id_codec_spec 0xA0000007 (by decide)).2.2.1⟩

/-! ### C10 — local tile id wraparound -/

/-- C10: the local-tile-id computation is total: it returns
`(bareID g - firstGlobalID t) mod 2^32`, so when the caller's precondition
`bareID g ≥ firstGlobalID t` is violated it silently wraps around rather
than failing. -/
theorem tile_id_total_wraparound (g : Nat) (t : TileSet)
    (ht : t.FirstGlobalID < 2 ^ 32) :
    GlobalID.TileID g t =
      (if t.FirstGlobalID ≤ GlobalID.BareID g
       then GlobalID.BareID g - t.FirstGlobalID
       else GlobalID.BareID g + 2 ^ 32 - t.FirstGlobalID)
    ∧ GlobalID.TileID g t < 2 ^ 32 := by
  have hb := bareID_lt g
  rw [GlobalID.TileID]
  simp only [show (2 : Nat) ^ 32 = 4294967296 from by norm_num,
    show (2 : Nat) ^ 29 = 536870912 from by norm_num] at *
  constructor
  · split <;> omega
  · omega

/-- Witness for `tile_id_total_wraparound` at a violated precondition:
bare id 5 against a tile-set whose first global id is 7 wraps to
`2^32 - 2`. -/
theorem tile_id_total_wraparound_witness :
    ({ FirstGlobalID := 7 : TileSet }).FirstGlobalID < 2 ^ 32
    ∧ GlobalID.TileID 5 { FirstGlobalID := 7 } =
        (if ({ FirstGlobalID := 7 : TileSet }).FirstGlobalID ≤ GlobalID.BareID 5
         then GlobalID.BareID 5 - 7 else GlobalID.BareID 5 + 2 ^ 32 - 7) :=
  ⟨by decide, (tile_id_total_wraparound 5 { FirstGlobalID := 7 } (by decide)).1⟩

/-! ### Resolver lemmas -/

/-- A non-empty list has a last element. -/
lemma getLast?_ne_none {α : Type} : ∀ l : List α, l ≠ [] → ∃ u, l.getLast? = some u
  | [], h => absurd rfl h
  | [a], _ => ⟨a, by simp⟩
  | a :: b :: m, _ => by
    rw [List.getLast?_cons_cons]
    exact getLast?_ne_none (b :: m) (by simp)

/-- On a sorted tile-set list the scan returns the last element whose
first-id is ≤ `bid`, falling back to the accumulator when there is
none. -/
lemma resolveTileSet_sorted_eq (bid : Nat) :
    ∀ (tss : List TileSet) (acc : Option TileSet),
      List.Pairwise (fun a b => a.FirstGlobalID ≤ b.FirstGlobalID) tss →
      resolveTileSet bid tss acc =
        match (tss.filter (fun t => decide (t.FirstGlobalID ≤ bid))).getLast? with
        | some t => some t
        | none => acc
  | [], acc => by
    intro _
    rfl
  | t :: rest, acc => by
    intro hs
    rw [List.pairwise_cons] at hs
    obtain ⟨hhead, htail⟩ := hs
    by_cases hb : bid < t.FirstGlobalID
    · have hpt : decide (t.FirstGlobalID ≤ bid) = false := by
        simp only [decide_eq_false_iff_not]
        omega
      have hfilt : List.filter (fun u => decide (u.FirstGlobalID ≤ bid)) (t :: rest) = [] := by
        rw [List.filter_eq_nil_iff]
        intro u hu
        rcases List.mem_cons.mp hu with rfl | hu'
        · simp only [decide_eq_true_eq]
          omega
        · have := hhead u hu'
          simp only [decide_eq_true_eq]
          omega
      rw [show resolveTileSet bid (t :: rest) acc = acc from by
        simp [resolveTileSet, if_pos hb]]
      rw [hfilt]
      rfl
    · have ht : t.FirstGlobalID ≤ bid := by omega
      have hfc : List.filter (fun u => decide (u.FirstGlobalID ≤ bid)) (t :: rest) =
          t :: List.filter (fun u => decide (u.FirstGlobalID ≤ bid)) rest := by
        simp [List.filter_cons, ht]
      have ih := resolveTileSet_sorted_eq bid rest (some t) htail
      rw [show resolveTileSet bid (t :: rest) acc = resolveTileSet bid rest (some t) from by
        simp [resolveTileSet, if_neg hb]]
      rw [ih, hfc]
      cases hm : List.filter (fun u => decide (u.FirstGlobalID ≤ bid)) rest with
      | nil => simp
      | cons v l =>
        rw [List.getLast?_cons_cons]
        obtain ⟨u, hu⟩ := getLast?_ne_none (v :: l) (by simp)
        rw [hu]

/-- The scan stops at the first tile-set whose first-id exceeds `bid`:
everything after it is never examined. -/
lemma resolveTileSet_stops (bid : Nat) (t : TileSet)
    (ht : bid < t.FirstGlobalID) :
    ∀ (pre post : List TileSet) (acc : Option TileSet),
      resolveTileSet bid (pre ++ t :: post) acc =
        resolveTileSet bid (pre ++ [t]) acc
  | [], post, acc => by simp [resolveTileSet, if_pos ht]
  | p :: pre', post, acc => by
    by_cases hb : bid < p.FirstGlobalID
    · simp [resolveTileSet, if_pos hb]
    · simp only [List.cons_append, resolveTileSet, if_neg hb]
      exact resolveTileSet_stops bid t ht pre' post (some p)

/-- If every tile-set's first-id exceeds `bid` the scan returns its
accumulator unchanged. -/
lemma resolveTileSet_all_gt (bid : Nat) (tss : List TileSet)
    (acc : Option TileSet) (h : ∀ t ∈ tss, bid < t.FirstGlobalID) :
    resolveTileSet bid tss acc = acc := by
  cases tss with
  | nil => rfl
  | cons t rest =>
    have := h t (List.mem_cons_self t rest)
    simp [resolveTileSet, if_pos this]

lemma mem_insertTS (t u : TileSet) :
    ∀ l : List TileSet, u ∈ insertTS t l ↔ u = t ∨ u ∈ l
  | [] => by simp [insertTS]
  | v :: rest => by
    by_cases hb : t.FirstGlobalID < v.FirstGlobalID
    · simp only [insertTS, if_pos hb, List.mem_cons]
    · simp only [insertTS, if_neg hb, List.mem_cons, mem_insertTS t u rest]
      tauto

/-- Sorting the tile-sets preserves membership. -/
lemma mem_sortTileSets (u : TileSet) :
    ∀ l : List TileSet, u ∈ sortTileSets l ↔ u ∈ l
  | [] => Iff.rfl
  | t :: rest => by
    simp [sortTileSets, mem_insertTS, mem_sortTileSets u rest]

/-! ### C1 — tile-set range resolution -/

/-- C1: on a tile-set collection sorted ascending by first global id and
a non-zero bare id, the scan returns the last tile-set in scan order
whose first-id is ≤ the bare id (it stops at the first tile-set whose
first-id exceeds it, so later entries are never examined); and when no
tile-set has first-id ≤ the bare id — the empty collection included —
the whole layer decode fails with the `noSuitableTileSet` error. -/
theorem tileset_resolver_spec (tss : List TileSet) (bid : Nat)
    (hs : List.Pairwise (fun a b => a.FirstGlobalID ≤ b.FirstGlobalID) tss)
    (hb : bid ≠ 0) :
    resolveTileSet bid tss none =
      (tss.filter (fun t => decide (t.FirstGlobalID ≤ bid))).getLast?
    ∧ (∀ (pre post : List TileSet) (t : TileSet) (acc : Option TileSet),
        bid < t.FirstGlobalID →
        resolveTileSet bid (pre ++ t :: post) acc =
          resolveTileSet bid (pre ++ [t]) acc)
    ∧ ((∀ t ∈ tss, bid < t.FirstGlobalID) →
        ∀ (g : Nat) (l : Layer), GlobalID.BareID g = bid →
          l.tileDefs = none →
          l.RawData.TileGlobalRefs = [{ GlobalID := g }] →
          (l.TileDefs tss).1 = .error (.noSuitableTileSet g)) := by
  refine ⟨?_, ?_, ?_⟩
  · rw [resolveTileSet_sorted_eq bid tss none hs]
    cases (tss.filter (fun t => decide (t.FirstGlobalID ≤ bid))).getLast? <;> rfl
  · intro pre post t acc ht
    exact resolveTileSet_stops bid t ht pre post acc
  · intro hall g l hg hcache hrefs
    have hresolve : resolveTileSet bid (sortTileSets tss) none = none := by
      apply resolveTileSet_all_gt
      intro t htm
      exact hall t ((mem_sortTileSets t tss).mp htm)
    have hbuild : buildTileDefs (sortTileSets tss) [{ GlobalID := g }] =
        .error (.noSuitableTileSet g) := by
      simp only [buildTileDefs, hg, if_neg hb, hresolve]
    have hrefsne : l.RawData.TileGlobalRefs ≠ [] := by
      rw [hrefs]
      exact List.cons_ne_nil _ _
    have hTGR : l.TileGlobalRefs = (.ok [{ GlobalID := g }], l, 0) := by
      simp [Layer.TileGlobalRefs, hrefsne, hrefs]
    simp only [Layer.TileDefs, hcache, hTGR, hbuild]

/-- Witness for `tileset_resolver_spec`: with the sorted collection
`[A@1, B@100, C@250]` and bare id 250 the scan returns `C`, and with the
collection `[B@100]` the bare id 50 makes the whole layer decode fail
with `noSuitableTileSet`. -/
theorem tileset_resolver_spec_witness :
    resolveTileSet 250
        [{ FirstGlobalID := 1, Name := "A" }, { FirstGlobalID := 100, Name := "B" },
          { FirstGlobalID := 250, Name := "C" }] none =
      some { FirstGlobalID := 250, Name := "C" }
    ∧ (Layer.TileDefs { RawData := { TileGlobalRefs := [{ GlobalID := 50 }] } }
          [{ FirstGlobalID := 100, Name := "B" }]).1 =
        .error (.noSuitableTileSet 50) := by
  constructor
  · have h := (tileset_resolver_spec
      [{ FirstGlobalID := 1, Name := "A" }, { FirstGlobalID := 100, Name := "B" },
        { FirstGlobalID := 250, Name := "C" }] 250 (by decide) (by decide)).1
    rw [h]
    decide
  · exact (tileset_resolver_spec [{ FirstGlobalID := 100, Name := "B" }] 50
      (by decide) (by decide)).2.2 (by decide) 50
      { RawData := { TileGlobalRefs := [{ GlobalID := 50 }] } }
      (by decide) rfl rfl

/-! ### C5 — the nil tile definition for bare id 0 -/

/-- C5: a global id whose bare id is 0 — whatever its flip bits — makes
the per-cell loop emit the distinguished nil tile definition (no
tile-set, no tile, zero id, unpopulated flip flags) and move on; the
tile-set scan is never consulted for that cell, so even an empty
tile-set collection produces no error. -/
theorem nil_tile_def_spec (g : Nat) (h : GlobalID.BareID g = 0) :
    (∀ tss rest, buildTileDefs tss ({ GlobalID := g } :: rest) =
        (buildTileDefs tss rest).map (fun tds => nilTileDef :: tds))
    ∧ (∀ tss, buildTileDefs tss [{ GlobalID := g }] = .ok [nilTileDef])
    ∧ nilTileDef = { Nil := true
                     ID := 0
                     GlobalID := 0
                     TileSet := none
                     Tile := none
                     HorizontallyFlipped := false
                     VerticallyFlipped := false
                     DiagonallyFlipped := false } := by
  refine ⟨?_, ?_, rfl⟩
  · intro tss rest
    simp [buildTileDefs, h]
  · intro tss
    simp [buildTileDefs, h]
    rfl

/-- Witness for `nil_tile_def_spec` at `0x80000000` (bare id 0 with the
horizontal flip bit set), against the empty tile-set collection. -/
theorem nil_tile_def_spec_witness :
    GlobalID.BareID 0x80000000 = 0
    ∧ buildTileDefs [] [{ GlobalID := 0x80000000 }] = .ok [nilTileDef] :=
  ⟨by decide, (nil_tile_def_spec 0x80000000 (by decide)).2.1 []⟩

/-! ### C7 — structured references take precedence -/

/-- C7: a layer carrying a non-empty structured reference list returns
it verbatim: the layer is unchanged, the payload decoder never runs
(count 0), and the blob — hence any invalid encoding or compression
tag — is never touched, so the call succeeds for every such layer. -/
theorem structured_refs_precedence (l : Layer)
    (h : l.RawData.TileGlobalRefs ≠ []) :
    l.TileGlobalRefs = (.ok l.RawData.TileGlobalRefs, l, 0) := by
  simp [Layer.TileGlobalRefs, h]

/-- Witness for `structured_refs_precedence`: a layer with an invalid
encoding tag and an invalid compression tag still returns its structured
references verbatim without decoding. -/
theorem structured_refs_precedence_witness :
    (badTagLayer.RawData.TileGlobalRefs ≠ [])
    ∧ Layer.TileGlobalRefs badTagLayer =
        (.ok [{ GlobalID := 42 }], badTagLayer, 0) :=
  ⟨by decide, structured_refs_precedence badTagLayer (by decide)⟩

/-! ### Pipeline lemmas -/

/-- A successful per-cell pass produces exactly one definition per
reference. -/
lemma buildTileDefs_ok_length (tss : List TileSet) :
    ∀ (tgrs : List TileGlobalRef) (tds : List TileDef),
      buildTileDefs tss tgrs = .ok tds → tds.length = tgrs.length
  | [], tds => by
    intro h
    simp only [buildTileDefs, Except.ok.injEq] at h
    subst h
    rfl
  | tgr :: rest, tds => by
    intro h
    simp only [buildTileDefs] at h
    by_cases hb : GlobalID.BareID tgr.GlobalID = 0
    · rw [if_pos hb] at h
      cases hm : buildTileDefs tss rest with
      | error e =>
        rw [hm] at h
        simp [Except.map] at h
      | ok tds' =>
        rw [hm] at h
        simp only [Except.map, Except.ok.injEq] at h
        subst h
        simp [buildTileDefs_ok_length tss rest tds' hm]
    · rw [if_neg hb] at h
      cases hr : resolveTileSet (GlobalID.BareID tgr.GlobalID) tss none with
      | none =>
        rw [hr] at h
        simp at h
      | some ts =>
        rw [hr] at h
        cases hm : buildTileDefs tss rest with
        | error e =>
          rw [hm] at h
          simp [Except.map] at h
        | ok tds' =>
          rw [hm] at h
          simp only [Except.map, Except.ok.injEq] at h
          subst h
          simp [buildTileDefs_ok_length tss rest tds' hm]

/-- If any reference has a non-zero bare id that no tile-set resolves,
the per-cell pass aborts with a `noSuitableTileSet` error. -/
lemma buildTileDefs_error_of_bad (tss : List TileSet) :
    ∀ tgrs : List TileGlobalRef,
      (∃ tgr ∈ tgrs, GlobalID.BareID tgr.GlobalID ≠ 0 ∧
        resolveTileSet (GlobalID.BareID tgr.GlobalID) tss none = none) →
      ∃ g, buildTileDefs tss tgrs = .error (.noSuitableTileSet g)
  | [], h => by simp at h
  | tgr :: rest, h => by
    by_cases hb : GlobalID.BareID tgr.GlobalID = 0
    · have hrest : ∃ tgr' ∈ rest, GlobalID.BareID tgr'.GlobalID ≠ 0 ∧
          resolveTileSet (GlobalID.BareID tgr'.GlobalID) tss none = none := by
        rcases h with ⟨t', ht', hbad⟩
        rcases List.mem_cons.mp ht' with rfl | hm
        · exact absurd hb hbad.1
        · exact ⟨t', hm, hbad⟩
      obtain ⟨g, hg⟩ := buildTileDefs_error_of_bad tss rest hrest
      refine ⟨g, ?_⟩
      simp only [buildTileDefs, if_pos hb, hg, Except.map]
    · cases hr : resolveTileSet (GlobalID.BareID tgr.GlobalID) tss none with
      | none =>
        refine ⟨tgr.GlobalID, ?_⟩
        simp only [buildTileDefs, if_neg hb, hr]
      | some ts =>
        have hrest : ∃ tgr' ∈ rest, GlobalID.BareID tgr'.GlobalID ≠ 0 ∧
            resolveTileSet (GlobalID.BareID tgr'.GlobalID) tss none = none := by
          rcases h with ⟨t', ht', hbad⟩
          rcases List.mem_cons.mp ht' with rfl | hm
          · rw [hr] at hbad
            exact absurd hbad.2 (by simp)
          · exact ⟨t', hm, hbad⟩
        obtain ⟨g, hg⟩ := buildTileDefs_error_of_bad tss rest hrest
        refine ⟨g, ?_⟩
        simp only [buildTileDefs, if_neg hb, hr, hg, Except.map]

/-- Fetching the raw references never touches the resolved-definition
cache. -/
lemma tileGlobalRefs_preserves_tileDefs (l : Layer) :
    (l.TileGlobalRefs).2.1.tileDefs = l.tileDefs := by
  by_cases h1 : l.RawData.TileGlobalRefs ≠ []
  · simp [Layer.TileGlobalRefs, h1]
  · cases h2 : l.tileGlobalRefs with
    | some trs => simp [Layer.TileGlobalRefs, h1, h2]
    | none =>
      cases h3 : layerDecodeUints l.RawData with
      | error e => simp [Layer.TileGlobalRefs, h1, h2, h3]
      | ok uis => simp [Layer.TileGlobalRefs, h1, h2, h3]

/-! ### C8 — no partial result -/

/-- C8: once the raw references decode, either every cell resolves and
the full ordered sequence (one definition per cell) is returned, or the
call fails: an unresolvable cell aborts the whole operation with the
`noSuitableTileSet` error, and a failed call caches nothing, so no
partial sequence is ever observable. -/
theorem no_partial_result (l : Layer) (tss : List TileSet)
    (hc : l.tileDefs = none) (tgrs : List TileGlobalRef)
    (h : (l.TileGlobalRefs).1 = .ok tgrs) :
    (∀ tds, (l.TileDefs tss).1 = .ok tds → tds.length = tgrs.length)
    ∧ (∀ e, (l.TileDefs tss).1 = .error e → (l.TileDefs tss).2.1.tileDefs = none)
    ∧ ((∃ tgr ∈ tgrs, GlobalID.BareID tgr.GlobalID ≠ 0 ∧
          resolveTileSet (GlobalID.BareID tgr.GlobalID) (sortTileSets tss) none = none) →
        ∃ g, (l.TileDefs tss).1 = .error (.noSuitableTileSet g)) := by
  have hpres := tileGlobalRefs_preserves_tileDefs l
  rcases hT : l.TileGlobalRefs with ⟨r, l1, n⟩
  rw [hT] at h hpres
  simp only at h hpres
  subst h
  have hTD : l.TileDefs tss =
      match buildTileDefs (sortTileSets tss) tgrs with
      | .error e => (.error e, l1, n)
      | .ok tds => (.ok tds, { l1 with tileDefs := if tds = [] then none else some tds }, n) := by
    simp only [Layer.TileDefs, hc, hT]
  cases hB : buildTileDefs (sortTileSets tss) tgrs with
  | error e0 =>
    rw [hB] at hTD
    refine ⟨?_, ?_, ?_⟩
    · intro tds htds
      rw [hTD] at htds
      simp at htds
    · intro e he
      rw [hTD]
      rw [hc] at hpres
      exact hpres
    · intro hbad
      obtain ⟨g, hg⟩ := buildTileDefs_error_of_bad (sortTileSets tss) tgrs hbad
      rw [hg] at hB
      cases hB
      exact ⟨g, by rw [hTD]⟩
  | ok tds0 =>
    rw [hB] at hTD
    refine ⟨?_, ?_, ?_⟩
    · intro tds htds
      rw [hTD] at htds
      simp only at htds
      injection htds with heq
      subst heq
      exact buildTileDefs_ok_length (sortTileSets tss) tgrs tds0 hB
    · intro e he
      rw [hTD] at he
      simp at he
    · intro hbad
      obtain ⟨g, hg⟩ := buildTileDefs_error_of_bad (sortTileSets tss) tgrs hbad
      rw [hg] at hB
      cases hB

/-- Witness for `no_partial_result`: a two-cell layer whose second cell
(bare id 1) is below the only tile-set's first global id 2 makes the
whole decode fail with `noSuitableTileSet`. -/
theorem no_partial_result_witness :
    ((Layer.TileGlobalRefs
        { RawData := { TileGlobalRefs := [{ GlobalID := 5 }, { GlobalID := 1 }] } }).1 =
      .ok [{ GlobalID := 5 }, { GlobalID := 1 }])
    ∧ ∃ g, (Layer.TileDefs
        { RawData := { TileGlobalRefs := [{ GlobalID := 5 }, { GlobalID := 1 }] } }
        [{ FirstGlobalID := 2 }]).1 = .error (.noSuitableTileSet g) := by
  constructor
  · rfl
  · exact (no_partial_result
      { RawData := { TileGlobalRefs := [{ GlobalID := 5 }, { GlobalID := 1 }] } }
      [{ FirstGlobalID := 2 }] rfl
      [{ GlobalID := 5 }, { GlobalID := 1 }] rfl).2.2 (by decide)

/-! ### C4 — memoization of the two decode stages -/

/-- Counterexample to C4 as stated: for the base64 layer with an empty
payload the first `TileGlobalRefs` call succeeds (with the empty
sequence) yet stores a Go nil slice, leaving the layer unchanged with an
empty cache — so the repeated call runs the payload decoder again
(decoder-run count 1, not 0) instead of returning a cached result. -/
theorem layer_cache_cex :
    (emptyB64Layer.TileGlobalRefs).1 = .ok []
    ∧ (emptyB64Layer.TileGlobalRefs).2.1 = emptyB64Layer
    ∧ (emptyB64Layer.TileGlobalRefs).2.1.tileGlobalRefs = none
    ∧ ((emptyB64Layer.TileGlobalRefs).2.1.TileGlobalRefs).2.2 = 1 := by
  refine ⟨rfl, rfl, rfl, rfl⟩

/-- C4 amended: after the first successful call of `TileGlobalRefs`
(respectively `TileDefs`) whose result is non-empty, the repeated call
returns the cached result — same value, same layer state — without
re-running the payload decoder (decoder-run count 0).  (An empty
successful result is assigned as a Go nil slice and therefore not
cached; see the counterexample.) -/
theorem layer_cache_amended_spec (l : Layer) :
    (∀ trs l1 n, l.TileGlobalRefs = (.ok trs, l1, n) → trs ≠ [] →
        l1.TileGlobalRefs = (.ok trs, l1, 0))
    ∧ (∀ tss tds l1 n, l.TileDefs tss = (.ok tds, l1, n) → tds ≠ [] →
        l1.TileDefs tss = (.ok tds, l1, 0)) := by
  constructor
  · intro trs l1 n h hne
    by_cases h1 : l.RawData.TileGlobalRefs ≠ []
    · have he : l.TileGlobalRefs = (.ok l.RawData.TileGlobalRefs, l, 0) := by
        simp [Layer.TileGlobalRefs, h1]
      rw [he] at h
      simp only [Prod.mk.injEq, Except.ok.injEq] at h
      obtain ⟨h2, h3, h4⟩ := h
      subst h3
      rw [h2] at he
      exact he
    · cases h2 : l.tileGlobalRefs with
      | some c =>
        have he : l.TileGlobalRefs = (.ok c, l, 0) := by
          simp [Layer.TileGlobalRefs, h1, h2]
        rw [he] at h
        simp only [Prod.mk.injEq, Except.ok.injEq] at h
        obtain ⟨h3, h4, h5⟩ := h
        subst h4
        rw [h3] at he
        exact he
      | none =>
        cases h3 : layerDecodeUints l.RawData with
        | error e =>
          have he : l.TileGlobalRefs = (.error e, l, 1) := by
            simp [Layer.TileGlobalRefs, h1, h2, h3]
          rw [he] at h
          simp at h
        | ok uis =>
          have he : l.TileGlobalRefs =
              (.ok (uis.map (fun ui => { GlobalID := ui })),
                { l with tileGlobalRefs :=
                    if uis.map (fun ui => ({ GlobalID := ui } : TileGlobalRef)) = []
                    then none
                    else some (uis.map (fun ui => { GlobalID := ui })) }, 1) := by
            simp [Layer.TileGlobalRefs, h1, h2, h3]
          rw [he] at h
          simp only [Prod.mk.injEq, Except.ok.injEq] at h
          obtain ⟨h4, h5, h6⟩ := h
          subst h4
          rw [if_neg hne] at h5
          subst h5
          have h1' : l.RawData.TileGlobalRefs = [] := by
            by_contra hcon
            exact h1 hcon
          simp [Layer.TileGlobalRefs, h1']
  · intro tss tds l1 n h hne
    cases hc : l.tileDefs with
    | some tds0 =>
      have he : l.TileDefs tss = (.ok tds0, l, 0) := by
        simp [Layer.TileDefs, hc]
      rw [he] at h
      simp only [Prod.mk.injEq, Except.ok.injEq] at h
      obtain ⟨h2, h3, h4⟩ := h
      subst h3
      rw [h2] at he
      exact he
    | none =>
      rcases hT : l.TileGlobalRefs with ⟨r, l2, n2⟩
      cases r with
      | error e =>
        have he : l.TileDefs tss = (.error e, l2, n2) := by
          simp only [Layer.TileDefs, hc, hT]
        rw [he] at h
        simp at h
      | ok tgrs =>
        cases hB : buildTileDefs (sortTileSets tss) tgrs with
        | error e =>
          have he : l.TileDefs tss = (.error e, l2, n2) := by
            simp only [Layer.TileDefs, hc, hT, hB]
          rw [he] at h
          simp at h
        | ok tds' =>
          have he : l.TileDefs tss =
              (.ok tds', { l2 with tileDefs :=
                  if tds' = [] then none else some tds' }, n2) := by
            simp only [Layer.TileDefs, hc, hT, hB]
          rw [he] at h
          simp only [Prod.mk.injEq, Except.ok.injEq] at h
          obtain ⟨h4, h5, h6⟩ := h
          subst h4
          rw [if_neg hne] at h5
          subst h5
          simp [Layer.TileDefs]

/-- Witness for `layer_cache_amended_spec`: a csv layer decoding to the
non-empty sequence `[1, 2]` is cached by its first call, and the second
call returns the same result with decoder-run count 0. -/
theorem layer_cache_amended_spec_witness :
    (Layer.TileGlobalRefs { RawData := { Encoding := "csv", RawBytes := "1,2".data } } =
      (.ok [{ GlobalID := 1 }, { GlobalID := 2 }],
        { RawData := { Encoding := "csv", RawBytes := "1,2".data }
          tileGlobalRefs := some [{ GlobalID := 1 }, { GlobalID := 2 }] }, 1))
    ∧ Layer.TileGlobalRefs
        { RawData := { Encoding := "csv", RawBytes := "1,2".data }
          tileGlobalRefs := some [{ GlobalID := 1 }, { GlobalID := 2 }] } =
      (.ok [{ GlobalID := 1 }, { GlobalID := 2 }],
        { RawData := { Encoding := "csv", RawBytes := "1,2".data }
          tileGlobalRefs := some [{ GlobalID := 1 }, { GlobalID := 2 }] }, 0) := by
  constructor
  · rfl
  · exact (layer_cache_amended_spec
      { RawData := { Encoding := "csv", RawBytes := "1,2".data } }).1
      [{ GlobalID := 1 }, { GlobalID := 2 }]
      { RawData := { Encoding := "csv", RawBytes := "1,2".data }
        tileGlobalRefs := some [{ GlobalID := 1 }, { GlobalID := 2 }] }
      1 rfl (by decide)

/-! ### C9 — terrain corner descriptors -/

/-- A signed 32-bit parse fails only with a parse error naming its
input. -/
lemma parseInt32_error_shape (cs : List Char) (e : TmxError)
    (h : parseInt32 cs = .error e) : e = .parseFailure cs := by
  simp only [parseInt32] at h
  split at h
  · injection h with h'
    exact h'.symm
  · split at h
    · cases h
    · injection h with h'
      exact h'.symm

/-- The corner loop fails only with a parse error (from one of its
fields). -/
lemma parseCorners_error_shape : ∀ (fs : List (List Char)) (e : TmxError),
    parseCorners fs = .error e → ∃ cs, e = .parseFailure cs
  | [], e => by
    intro h
    simp [parseCorners] at h
  | f :: rest, e => by
    intro h
    simp only [parseCorners] at h
    cases hp : parseInt32 (trimChars f) with
    | error e' =>
      rw [hp] at h
      injection h with h'
      subst h'
      exact ⟨trimChars f, parseInt32_error_shape _ _ hp⟩
    | ok v =>
      rw [hp] at h
      cases hm : parseCorners rest with
      | error e'' =>
        rw [hm] at h
        simp only [Except.map] at h
        injection h with h'
        subst h'
        exact parseCorners_error_shape rest _ hm
      | ok vs =>
        rw [hm] at h
        simp [Except.map] at h

/-- C9: an empty/absent terrain descriptor yields a zero-valued
four-corner result with no error (and no caching); a descriptor whose
comma-separated field count is not 4 fails with the field-count error; a
failing field parse aborts with that field's parse error (always a
`parseFailure`); a successful 4-field parse yields the four corners in
order (top-left, top-right, bottom-left, bottom-right) and is cached on
the tile, and the repeated call returns the cached result. -/
theorem terrain_type_spec (t : Tile) (hc : t.terrainType = none) :
    (t.RawTerrainType = [] → t.TerrainType = (.ok {}, t))
    ∧ (t.RawTerrainType ≠ [] → (splitFields t.RawTerrainType).length ≠ 4 →
        t.TerrainType = (.error (.terrainFieldCount t.RawTerrainType
          (splitFields t.RawTerrainType).length), t))
    ∧ (∀ e, t.RawTerrainType ≠ [] → (splitFields t.RawTerrainType).length = 4 →
        parseCorners (splitFields t.RawTerrainType) = .error e →
        t.TerrainType = (.error e, t) ∧ ∃ cs, e = .parseFailure cs)
    ∧ (∀ a b c d, t.RawTerrainType ≠ [] → (splitFields t.RawTerrainType).length = 4 →
        parseCorners (splitFields t.RawTerrainType) = .ok [a, b, c, d] →
        t.TerrainType = (.ok { TopLeft := a, TopRight := b, BottomLeft := c, BottomRight := d },
          { t with terrainType := some { TopLeft := a, TopRight := b, BottomLeft := c, BottomRight := d } }))
    ∧ (∀ tt t', t.TerrainType = (.ok tt, t') → t.RawTerrainType ≠ [] →
        t'.TerrainType = (.ok tt, t')) := by
  refine ⟨?_, ?_, ?_, ?_, ?_⟩
  · intro hr
    simp [Tile.TerrainType, hr]
  · intro hr hlen
    simp [Tile.TerrainType, hr, hc, hlen]
  · intro e hr hlen hp
    constructor
    · simp [Tile.TerrainType, hr, hc, hlen, hp]
    · exact parseCorners_error_shape _ e hp
  · intro a b c d hr hlen hp
    simp [Tile.TerrainType, hr, hc, hlen, hp]
  · intro tt t' h hr
    cases hcc : t.terrainType with
    | some tt0 =>
      have he : t.TerrainType = (.ok tt0, t) := by
        simp [Tile.TerrainType, hr, hcc]
      rw [he] at h
      simp only [Prod.mk.injEq, Except.ok.injEq] at h
      obtain ⟨h1, h2⟩ := h
      subst h2
      rw [h1] at he
      exact he
    | none =>
      rw [hcc] at hc
      by_cases hlen : (splitFields t.RawTerrainType).length ≠ 4
      · have he : t.TerrainType = (.error (.terrainFieldCount t.RawTerrainType
            (splitFields t.RawTerrainType).length), t) := by
          simp [Tile.TerrainType, hr, hcc, hlen]
        rw [he] at h
        simp at h
      · cases hp : parseCorners (splitFields t.RawTerrainType) with
        | error e =>
          have he : t.TerrainType = (.error e, t) := by
            simp [Tile.TerrainType, hr, hcc, hlen, hp]
          rw [he] at h
          simp at h
        | ok vs =>
          have he : t.TerrainType =
              (.ok { TopLeft := vs.getD 0 0, TopRight := vs.getD 1 0, BottomLeft := vs.getD 2 0, BottomRight := vs.getD 3 0 },
                { t with terrainType := some { TopLeft := vs.getD 0 0, TopRight := vs.getD 1 0, BottomLeft := vs.getD 2 0, BottomRight := vs.getD 3 0 } }) := by
            simp [Tile.TerrainType, hr, hcc, hlen, hp]
          rw [he] at h
          simp only [Prod.mk.injEq, Except.ok.injEq] at h
          obtain ⟨h1, h2⟩ := h
          subst h2
          have hr' : ({ t with terrainType := some { TopLeft := vs.getD 0 0, TopRight := vs.getD 1 0, BottomLeft := vs.getD 2 0, BottomRight := vs.getD 3 0 } : Tile }).RawTerrainType ≠ [] := hr
          simp only [Tile.TerrainType, if_neg (by exact hr')]
          rw [h1]

/-- Witness for `terrain_type_spec`: the descriptor `"1,2,3,4"` decodes
to corners `{1, 2, 3, 4}` and is cached; `"1,2,3"` fails with the
field-count error; the empty descriptor yields the zero-valued result. -/
theorem terrain_type_spec_witness :
    Tile.TerrainType { RawTerrainType := "1,2,3,4".data } =
      (.ok { TopLeft := 1, TopRight := 2, BottomLeft := 3, BottomRight := 4 },
        { RawTerrainType := "1,2,3,4".data, terrainType := some { TopLeft := 1, TopRight := 2, BottomLeft := 3, BottomRight := 4 } })
    ∧ Tile.TerrainType { RawTerrainType := "1,2,3".data } =
      (.error (.terrainFieldCount ("1,2,3".data) 3), { RawTerrainType := "1,2,3".data })
    ∧ Tile.TerrainType { RawTerrainType := [] } = (.ok {}, { RawTerrainType := [] }) := by
  refine ⟨?_, ?_, ?_⟩
  · exact (terrain_type_spec { RawTerrainType := "1,2,3,4".data } rfl).2.2.2.1
      1 2 3 4 (by decide) (by decide) rfl
  · have h := (terrain_type_spec { RawTerrainType := "1,2,3".data } rfl).2.1
      (by decide) (by decide)
    rw [show (splitFields ("1,2,3".data)).length = 3 from by decide] at h
    exact h
  · exact (terrain_type_spec { RawTerrainType := [] } rfl).1 rfl

end Tmx
